import Mathlib

/-!
Verification of the session/event analytics aggregator of the
delta-engine repository, shallow-embedded from
examples/3-advanced/delta-agent-generator/scripts/analyze_experience.py
and
examples/3-advanced/delta-agent-generator/experience-analyzer/tools/basic_stats.py.

Conventions of the embedding:
- a parsed JSON-lines record is a `Record` with the four fields the
  aggregators read; any further JSON fields are ignored by the code, so
  they are not modelled;
- Python numbers are modelled by the exact rationals; the float rounding
  builtin round(x, n) is modelled by exact rational rounding to n decimal
  places;
- the sample standard deviation calls an irrational square root, so the
  aggregators are parametric in the function sd computing it; every
  theorem below holds for all sd, because the code only uses sd behind
  the guard len(costs) > 1;
- a JSON-lines input file is modelled as `Option (List Line)`: `none` is
  an absent file, and each line is blank, malformed, or a valid record.
-/

namespace DeltaEngine

/-- One parsed log record. Every field is optional, exactly as a JSON
object may omit any key; dict.get semantics is Option. -/
structure Record where
  action : Option String
  session_id : Option String
  agent_type : Option String
  cost_usd : Option ℚ
deriving DecidableEq, Repr

/-- Rounding to 2 decimal places, modelling round(x, 2). -/
def round2 (q : ℚ) : ℚ := (round (q * 100) : ℤ) / 100

/-- Rounding to 1 decimal place, modelling round(x, 1). -/
def round1 (q : ℚ) : ℚ := (round (q * 10) : ℤ) / 10

/-- Arithmetic mean, modelling statistics.mean on a nonempty list. -/
def meanQ (l : List ℚ) : ℚ := l.sum / (l.length : ℚ)

/-- Insert into a sorted list, keeping order. -/
def insortQ (x : ℚ) : List ℚ → List ℚ
  | [] => [x]
  | y :: ys => if x ≤ y then x :: y :: ys else y :: insortQ x ys

/-- Insertion sort, modelling sorted(...) as used by statistics.median. -/
def sortQ : List ℚ → List ℚ
  | [] => []
  | x :: xs => insortQ x (sortQ xs)

/-- statistics.median: middle of the sorted list, or the average of the
two middle elements when the length is even. -/
def medianQ (l : List ℚ) : ℚ :=
  let s := sortQ l
  let n := s.length
  if n % 2 = 1 then s.getD (n / 2) 0
  else (s.getD (n / 2 - 1) 0 + s.getD (n / 2) 0) / 2

/-- Python min over a nonempty list (the callers guard nonemptiness). -/
def minQ : List ℚ → ℚ
  | [] => 0
  | x :: xs => xs.foldl min x

/-- Python max over a nonempty list (the callers guard nonemptiness). -/
def maxQ : List ℚ → ℚ
  | [] => 0
  | x :: xs => xs.foldl max x

/-- One line of the sessions.jsonl input: blank, malformed JSON, or a
line parsing to a record. -/
inductive Line
  | blank
  | malformed
  | valid (r : Record)
deriving DecidableEq, Repr

/-- Whether a line is the malformed-JSON case. -/
def Line.isMalformed : Line → Bool
  | .malformed => true
  | _ => false

/-- The records of the lines that parse, in order (what a loader that
skipped malformed lines would return). -/
def validRecords : List Line → List Record
  | [] => []
  | .valid r :: rest => r :: validRecords rest
  | _ :: rest => validRecords rest

/-- Insert-or-update on an association list preserving first-insertion
key order, modelling one defaultdict access followed by a mutation: a
missing key is created from the default d, then f is applied. -/
def updAssoc {α : Type} (k : String) (d : α) (f : α → α) :
    List (String × α) → List (String × α)
  | [] => [(k, f d)]
  | (k', v) :: rest =>
      if k' = k then (k', f v) :: rest else (k', v) :: updAssoc k d f rest

/-- Overwrite-or-insert on an association list, modelling dict[k] = v. -/
def setAssoc {α : Type} (k : String) (v : α) :
    List (String × α) → List (String × α)
  | [] => [(k, v)]
  | (k', w) :: rest =>
      if k' = k then (k', v) :: rest else (k', w) :: setAssoc k v rest

namespace ExperienceAnalyzer

/-- ExperienceAnalyzer.load_sessions. The whole reading loop sits in one
try block whose except clause catches json.JSONDecodeError after the
loop, so a malformed line ends the loop: the records appended before it
are kept, everything after it is never read. A missing file yields []. -/
def load_sessions_lines : List Line → List Record
  | [] => []
  | .blank :: rest => load_sessions_lines rest
  | .valid r :: rest => r :: load_sessions_lines rest
  | .malformed :: _ => []

/-- ExperienceAnalyzer.load_sessions over an optional file: an absent
file (FileNotFoundError) yields the empty record sequence. -/
def load_sessions (file : Option (List Line)) : List Record :=
  match file with
  | none => []
  | some lines => load_sessions_lines lines

/-- Count of records whose action field equals a. -/
def countAction (sessions : List Record) (a : String) : Nat :=
  (sessions.filter fun s => s.action == some a).length

/-- Sum of cost_usd over the records carrying the field, from the
comprehension sum(s.get(cost_usd, 0) for s in sessions if cost_usd in s). -/
def totalCost (sessions : List Record) : ℚ :=
  ((sessions.filter fun s => s.cost_usd.isSome).map
    fun s => s.cost_usd.getD 0).sum

/-- Result shape of ExperienceAnalyzer.get_summary. -/
structure Summary where
  total_executions : Nat
  completed : Nat
  failed : Nat
  success_rate : ℚ
  total_cost_usd : ℚ
  avg_cost_per_agent : ℚ
deriving DecidableEq, Repr

/-- ExperienceAnalyzer.get_summary. -/
def get_summary (sessions : List Record) : Summary :=
  let executions := countAction sessions "execute"
  let completedN := countAction sessions "complete"
  let failedN := countAction sessions "failed"
  let total_cost := totalCost sessions
  { total_executions := executions
    completed := completedN
    failed := failedN
    success_rate :=
      if executions = 0 then 0 else (completedN : ℚ) / (executions : ℚ)
    total_cost_usd := round2 total_cost
    avg_cost_per_agent :=
      if completedN = 0 then 0 else round2 (total_cost / (completedN : ℚ)) }

end ExperienceAnalyzer

namespace BasicStats

/-- basic_stats.load_sessions: as in the script, the whole loop sits in
one try block, but the except clause returns [], so a malformed line
discards even the records read before it. -/
def load_sessions_lines : List Line → Option (List Record)
  | [] => some []
  | .blank :: rest => load_sessions_lines rest
  | .malformed :: _ => none
  | .valid r :: rest => (load_sessions_lines rest).map (r :: ·)

/-- basic_stats.load_sessions over an optional file: absent file and
malformed file both yield []. -/
def load_sessions (file : Option (List Line)) : List Record :=
  match file with
  | none => []
  | some lines => (load_sessions_lines lines).getD []

/-- Result shape of basic_stats.get_summary (adds total_sessions and
rounds the success rate, unlike the script version). -/
structure Summary where
  total_sessions : Nat
  total_executions : Nat
  completed : Nat
  failed : Nat
  success_rate : ℚ
  total_cost_usd : ℚ
  avg_cost_per_agent : ℚ
deriving DecidableEq, Repr

/-- basic_stats.get_summary. -/
def get_summary (sessions : List Record) : Summary :=
  let executions := ExperienceAnalyzer.countAction sessions "execute"
  let completedN := ExperienceAnalyzer.countAction sessions "complete"
  let failedN := ExperienceAnalyzer.countAction sessions "failed"
  let total_cost := ExperienceAnalyzer.totalCost sessions
  { total_sessions := sessions.length
    total_executions := executions
    completed := completedN
    failed := failedN
    success_rate :=
      if executions = 0 then 0
      else round2 ((completedN : ℚ) / (executions : ℚ))
    total_cost_usd := round2 total_cost
    avg_cost_per_agent :=
      if completedN = 0 then 0 else round2 (total_cost / (completedN : ℚ)) }

end BasicStats

/-- Python max over a nonempty list of naturals (callers guard
nonemptiness; 0 is a dummy for the empty case). -/
def maxNat : List Nat → Nat
  | [] => 0
  | x :: xs => xs.foldl Nat.max x

namespace ExperienceAnalyzer

/-- Per-agent-type accumulator of the grouping loop of
analyze_agent_types: a defaultdict value with count, costs, success,
failed. -/
structure TypeData where
  count : Nat
  costs : List ℚ
  success : Nat
  failed : Nat
deriving DecidableEq, Repr

/-- Default value of the agent-type defaultdict. -/
def TypeData.empty : TypeData := ⟨0, [], 0, 0⟩

/-- One iteration of the grouping loop of analyze_agent_types. Only the
execute, complete and failed branches touch the defaultdict, so only
they can insert a key. -/
def typeDataStep (td : List (String × TypeData)) (s : Record) :
    List (String × TypeData) :=
  let t := s.agent_type.getD "unknown"
  match s.action with
  | some "execute" =>
      updAssoc t TypeData.empty
        (fun d =>
          { d with
            count := d.count + 1
            costs := d.costs ++
              (match s.cost_usd with | some c => [c] | none => []) }) td
  | some "complete" =>
      updAssoc t TypeData.empty (fun d => { d with success := d.success + 1 }) td
  | some "failed" =>
      updAssoc t TypeData.empty (fun d => { d with failed := d.failed + 1 }) td
  | _ => td

/-- The grouping loop of analyze_agent_types, in file order, preserving
first-insertion key order as a Python dict does. -/
def typeData (sessions : List Record) : List (String × TypeData) :=
  sessions.foldl typeDataStep []

/-- Result entry shape of ExperienceAnalyzer.analyze_agent_types. -/
structure TypeStats where
  count : Nat
  success : Nat
  failed : Nat
  success_rate : ℚ
  avg_cost : ℚ
  min_cost : ℚ
  max_cost : ℚ
  median_cost : ℚ
deriving DecidableEq, Repr

/-- The statistics block computed for one agent type. -/
def mkTypeStats (d : TypeData) : TypeStats :=
  { count := d.count
    success := d.success
    failed := d.failed
    success_rate := if d.count = 0 then 0 else (d.success : ℚ) / (d.count : ℚ)
    avg_cost := if d.costs.isEmpty then 0 else round2 (meanQ d.costs)
    min_cost := if d.costs.isEmpty then 0 else round2 (minQ d.costs)
    max_cost := if d.costs.isEmpty then 0 else round2 (maxQ d.costs)
    median_cost :=
      match d.costs with
      | [] => 0
      | [c] => c
      | _ => round2 (medianQ d.costs) }

/-- ExperienceAnalyzer.analyze_agent_types: keep the groups with at
least one execute record, in insertion order. -/
def analyze_agent_types (sessions : List Record) : List (String × TypeStats) :=
  (typeData sessions).filterMap fun p =>
    if 0 < p.2.count then some (p.1, mkTypeStats p.2) else none

/-- One iteration of the costs_by_action grouping loop of
analyze_costs: only records carrying cost_usd are grouped, keyed by
action with default unknown. -/
def costsByActionStep (m : List (String × List ℚ)) (s : Record) :
    List (String × List ℚ) :=
  match s.cost_usd with
  | none => m
  | some c => updAssoc (s.action.getD "unknown") [] (fun l => l ++ [c]) m

/-- The costs_by_action mapping of analyze_costs, in insertion order. -/
def costsByAction (sessions : List Record) : List (String × List ℚ) :=
  sessions.foldl costsByActionStep []

/-- Per-action statistics block shape of analyze_costs. -/
structure ActionStats where
  count : Nat
  total : ℚ
  avg : ℚ
  min : ℚ
  max : ℚ
  median : ℚ
  stdev : ℚ
deriving DecidableEq, Repr

/-- The per-action statistics block of analyze_costs. The sample
standard deviation is sd, called only when more than one cost exists;
with fewer than two costs the literal 0 is reported. With exactly one
cost the median is that cost itself, unrounded; otherwise it is the
rounded computed median. -/
def mkActionStats (sd : List ℚ → ℚ) (costs : List ℚ) : ActionStats :=
  { count := costs.length
    total := round2 costs.sum
    avg := round2 (meanQ costs)
    min := round2 (minQ costs)
    max := round2 (maxQ costs)
    median :=
      match costs with
      | [c] => c
      | _ => round2 (medianQ costs)
    stdev := if 1 < costs.length then round2 (sd costs) else 0 }

/-- The cost-category counts of analyze_costs. -/
structure Categories where
  simple : Nat
  medium : Nat
  complex : Nat
deriving DecidableEq, Repr

/-- The all_costs comprehension of analyze_costs: costs of the records
that carry cost_usd and whose action is execute. -/
def costedExecCosts (sessions : List Record) : List ℚ :=
  (sessions.filter fun s => s.cost_usd.isSome && s.action == some "execute").map
    fun s => s.cost_usd.getD 0

/-- Result shape of analyze_costs: the per-action mapping plus the
categories block, which the code adds only when all_costs is nonempty. -/
structure CostPatterns where
  byAction : List (String × ActionStats)
  categories : Option Categories
deriving DecidableEq, Repr

/-- ExperienceAnalyzer.analyze_costs. -/
def analyze_costs (sd : List ℚ → ℚ) (sessions : List Record) : CostPatterns :=
  let byAction := (costsByAction sessions).filterMap fun p =>
    if p.2.isEmpty then none else some (p.1, mkActionStats sd p.2)
  let all_costs := costedExecCosts sessions
  { byAction := byAction
    categories :=
      if all_costs.isEmpty then none
      else some
        { simple := (all_costs.filter fun c => decide (c ≤ 15 / 100)).length
          medium :=
            (all_costs.filter fun c => decide (15 / 100 < c ∧ c ≤ 40 / 100)).length
          complex := (all_costs.filter fun c => decide (40 / 100 < c)).length } }

/-- Result shape of ExperienceAnalyzer.analyze_success. -/
structure SuccessMetrics where
  total_attempts : Nat
  successful : Nat
  failedCount : Nat
  success_rate : ℚ
  failure_rate : ℚ
deriving DecidableEq, Repr

/-- One pass of analyze_success over a record list, writing the constant
outcome v into the session_outcomes dict for every record carrying a
session_id. -/
def outcomesPass (v : String) (rs : List Record)
    (m : List (String × String)) : List (String × String) :=
  rs.foldl (fun m s =>
    match s.session_id with
    | some sid => setAssoc sid v m
    | none => m) m

/-- The session_outcomes dict of analyze_success: first every complete
record writes success, then every failed record writes failed. -/
def sessionOutcomes (sessions : List Record) : List (String × String) :=
  let successes := sessions.filter fun s => s.action == some "complete"
  let failures := sessions.filter fun s => s.action == some "failed"
  outcomesPass "failed" failures (outcomesPass "success" successes [])

/-- ExperienceAnalyzer.analyze_success. -/
def analyze_success (sessions : List Record) : SuccessMetrics :=
  let m := sessionOutcomes sessions
  let sc := (m.filter fun p => p.2 == "success").length
  let fc := (m.filter fun p => p.2 == "failed").length
  let total := m.length
  { total_attempts := total
    successful := sc
    failedCount := fc
    success_rate := if total = 0 then 0 else round2 ((sc : ℚ) / (total : ℚ))
    failure_rate := if total = 0 then 0 else round2 ((fc : ℚ) / (total : ℚ)) }

/-- The session_id values of the resume records, in file order; resume
records without a session_id are dropped. -/
def resumeSids (sessions : List Record) : List String :=
  (sessions.filter fun s => s.action == some "resume").filterMap
    fun s => s.session_id

/-- The session_resumes Counter of analyze_resumes, keyed by session_id
in first-occurrence order. -/
def sessionResumes (sessions : List Record) : List (String × Nat) :=
  (resumeSids sessions).foldl (fun m sid => updAssoc sid 0 (· + 1) m) []

/-- The distribution block of analyze_resumes. The 0-resumes bucket is
an integer difference and may be negative. -/
structure Distribution where
  zero_resumes : ℤ
  one_resume : Nat
  twoplus_resumes : Nat
deriving DecidableEq, Repr

/-- Result shape of analyze_resumes: max_resumes and distribution are
absent in the early-return branch. -/
structure ResumeStats where
  total_resumes : Nat
  sessions_with_resumes : Nat
  avg_resumes_per_session : ℚ
  max_resumes : Option Nat
  distribution : Option Distribution
deriving DecidableEq, Repr

/-- ExperienceAnalyzer.analyze_resumes. -/
def analyze_resumes (sessions : List Record) : ResumeStats :=
  let session_resumes := sessionResumes sessions
  if session_resumes.isEmpty then
    { total_resumes := 0
      sessions_with_resumes := 0
      avg_resumes_per_session := 0
      max_resumes := none
      distribution := none }
  else
    let resume_counts := session_resumes.map fun p => p.2
    { total_resumes := resume_counts.sum
      sessions_with_resumes := session_resumes.length
      avg_resumes_per_session :=
        round1 (meanQ (resume_counts.map fun n => (n : ℚ)))
      max_resumes := some (maxNat resume_counts)
      distribution := some
        { zero_resumes :=
            (countAction sessions "complete" : ℤ) - (session_resumes.length : ℤ)
          one_resume := (resume_counts.filter fun n => n == 1).length
          twoplus_resumes :=
            (resume_counts.filter fun n => decide (2 ≤ n)).length } }

end ExperienceAnalyzer

namespace ExperienceAnalyzer

/-- The advisory strings of generate_recommendations, one constructor
per rule, carrying the numbers interpolated into the message text. -/
inductive Advice
  | lowSuccess
  | highSuccess
  | highCost (amount : ℚ)
  | highResumes (avg : ℚ)
  | typeTemplate (agent_type : String) (count : Nat)
  | limitedHistory
deriving DecidableEq, Repr

/-- Python max(items, key=count) over the agent-type mapping: the first
entry of maximal count in iteration order. -/
def maxByCount (l : List (String × TypeStats)) : Option (String × TypeStats) :=
  match l with
  | [] => none
  | x :: xs =>
      some (xs.foldl (fun best p => if best.2.count < p.2.count then p else best) x)

/-- ExperienceAnalyzer.generate_recommendations: an if/elif pair on the
success rate, then three independent threshold rules, emitted in fixed
order. -/
def generate_recommendations (sessions : List Record) : List Advice :=
  let summary := get_summary sessions
  let successRecs : List Advice :=
    if summary.success_rate < 70 / 100 then [.lowSuccess]
    else if 85 / 100 ≤ summary.success_rate then [.highSuccess]
    else []
  let costRecs : List Advice :=
    if 50 / 100 < summary.avg_cost_per_agent then
      [.highCost summary.avg_cost_per_agent]
    else []
  let resume_patterns := analyze_resumes sessions
  let resumeRecs : List Advice :=
    if 2 < resume_patterns.avg_resumes_per_session then
      [.highResumes resume_patterns.avg_resumes_per_session]
    else []
  let agent_types := analyze_agent_types sessions
  let typeRecs : List Advice :=
    if 3 < agent_types.length then
      match maxByCount agent_types with
      | some p => [.typeTemplate p.1 p.2.count]
      | none => []
    else []
  let historyRecs : List Advice :=
    if sessions.length < 5 then [.limitedHistory] else []
  successRecs ++ costRecs ++ resumeRecs ++ typeRecs ++ historyRecs

/-- Top-level output shape of ExperienceAnalyzer.analyze_all. The
no-history branch is the literal three-key dict of the code; the
analyzed branch carries every aggregate (the constant two-string
tool_patterns dict is omitted from the model as pure text). -/
inductive Report
  | noHistory (status message : String) (total_sessions : Nat)
  | analyzed (status : String) (total_sessions : Nat) (summary : Summary)
      (agent_types : List (String × TypeStats)) (cost_patterns : CostPatterns)
      (success_metrics : SuccessMetrics) (resume_patterns : ResumeStats)
      (recommendations : List Advice)
deriving DecidableEq, Repr

/-- ExperienceAnalyzer.analyze_all. -/
def analyze_all (sd : List ℚ → ℚ) (sessions : List Record) : Report :=
  if sessions.isEmpty then
    .noHistory "no_history" "No session history found" 0
  else
    .analyzed "analyzed" sessions.length (get_summary sessions)
      (analyze_agent_types sessions) (analyze_costs sd sessions)
      (analyze_success sessions) (analyze_resumes sessions)
      (generate_recommendations sessions)

/-- Whether a report carries the summary block (and with it the group
mappings of the analyzed shape). -/
def Report.hasSummary : Report → Bool
  | .noHistory .. => false
  | .analyzed .. => true

end ExperienceAnalyzer

namespace BasicStats

/-- Result entry shape of basic_stats.analyze_agent_types, which rounds
the per-type success rate unlike the script version. -/
structure TypeStats where
  count : Nat
  success : Nat
  failed : Nat
  success_rate : ℚ
  avg_cost : ℚ
  min_cost : ℚ
  max_cost : ℚ
  median_cost : ℚ
deriving DecidableEq, Repr

/-- The statistics block computed for one agent type by basic_stats. -/
def mkTypeStats (d : ExperienceAnalyzer.TypeData) : TypeStats :=
  { count := d.count
    success := d.success
    failed := d.failed
    success_rate :=
      if d.count = 0 then 0 else round2 ((d.success : ℚ) / (d.count : ℚ))
    avg_cost := if d.costs.isEmpty then 0 else round2 (meanQ d.costs)
    min_cost := if d.costs.isEmpty then 0 else round2 (minQ d.costs)
    max_cost := if d.costs.isEmpty then 0 else round2 (maxQ d.costs)
    median_cost :=
      match d.costs with
      | [] => 0
      | [c] => c
      | _ => round2 (medianQ d.costs) }

/-- basic_stats.analyze_agent_types; its grouping loop is textually the
same as the script version, so it reuses the typeData embedding. -/
def analyze_agent_types (sessions : List Record) : List (String × TypeStats) :=
  (ExperienceAnalyzer.typeData sessions).filterMap fun p =>
    if 0 < p.2.count then some (p.1, mkTypeStats p.2) else none

/-- One iteration of the costs_by_action grouping loop of
basic_stats.analyze_costs. -/
def costsByActionStep (m : List (String × List ℚ)) (s : Record) :
    List (String × List ℚ) :=
  match s.cost_usd with
  | none => m
  | some c => updAssoc (s.action.getD "unknown") [] (fun l => l ++ [c]) m

/-- The costs_by_action mapping of basic_stats.analyze_costs. -/
def costsByAction (sessions : List Record) : List (String × List ℚ) :=
  sessions.foldl costsByActionStep []

/-- The per-action statistics block of basic_stats.analyze_costs. -/
def mkActionStats (sd : List ℚ → ℚ) (costs : List ℚ) :
    ExperienceAnalyzer.ActionStats :=
  { count := costs.length
    total := round2 costs.sum
    avg := round2 (meanQ costs)
    min := round2 (minQ costs)
    max := round2 (maxQ costs)
    median :=
      match costs with
      | [c] => c
      | _ => round2 (medianQ costs)
    stdev := if 1 < costs.length then round2 (sd costs) else 0 }

/-- The all_costs comprehension of basic_stats.analyze_costs. -/
def costedExecCosts (sessions : List Record) : List ℚ :=
  (sessions.filter fun s => s.cost_usd.isSome && s.action == some "execute").map
    fun s => s.cost_usd.getD 0

/-- basic_stats.analyze_costs. -/
def analyze_costs (sd : List ℚ → ℚ) (sessions : List Record) :
    ExperienceAnalyzer.CostPatterns :=
  let byAction := (costsByAction sessions).filterMap fun p =>
    if p.2.isEmpty then none else some (p.1, mkActionStats sd p.2)
  let all_costs := costedExecCosts sessions
  { byAction := byAction
    categories :=
      if all_costs.isEmpty then none
      else some
        { simple := (all_costs.filter fun c => decide (c ≤ 15 / 100)).length
          medium :=
            (all_costs.filter fun c => decide (15 / 100 < c ∧ c ≤ 40 / 100)).length
          complex := (all_costs.filter fun c => decide (40 / 100 < c)).length } }

/-- Top-level output shape of basic_stats.main: the no-history branch
prints a literal dict that, unlike the analyzed branch, also carries a
message key; both branches carry summary, agent_types and
cost_patterns keys. -/
inductive Report
  | noHistory (status message : String) (summary : Summary)
      (agent_types : List (String × TypeStats))
      (cost_patterns : ExperienceAnalyzer.CostPatterns)
  | analyzed (status : String) (summary : Summary)
      (agent_types : List (String × TypeStats))
      (cost_patterns : ExperienceAnalyzer.CostPatterns)
deriving DecidableEq, Repr

/-- The document printed by basic_stats.main for a given loaded record
sequence. -/
def main_report (sd : List ℚ → ℚ) (sessions : List Record) : Report :=
  if sessions.isEmpty then
    .noHistory "no_history" "No session history found"
      { total_sessions := 0, total_executions := 0, completed := 0, failed := 0
        success_rate := 0, total_cost_usd := 0, avg_cost_per_agent := 0 }
      [] { byAction := [], categories := none }
  else
    .analyzed "analyzed" (get_summary sessions) (analyze_agent_types sessions)
      (analyze_costs sd sessions)

end BasicStats

/-- A bare execute record. -/
def rExec : Record := ⟨some "execute", none, none, none⟩

/-- A bare complete record. -/
def rComp : Record := ⟨some "complete", none, none, none⟩

/-- An execute record of agent type gen costing 0.10. -/
def rExecCost : Record := ⟨some "execute", none, some "gen", some (1 / 10)⟩

/-- An execute record of session a. -/
def rSessA : Record := ⟨some "execute", some "a", none, none⟩

/-- An execute record of session b. -/
def rSessB : Record := ⟨some "execute", some "b", none, none⟩

/-- A record without any field, as parsed from the JSON object with no
keys. -/
def rEmpty : Record := ⟨none, none, none, none⟩

/-- The constant-zero stand-in for the standard-deviation core, used to
instantiate sd at concrete inputs. -/
def sdZero : List ℚ → ℚ := fun _ => 0

theorem loadA_lines_eq (lines : List Line) :
    ExperienceAnalyzer.load_sessions_lines lines =
      validRecords (lines.takeWhile fun l => !l.isMalformed) := by
  induction lines with
  | nil => rfl
  | cons l rest ih =>
      cases l <;>
        simp [ExperienceAnalyzer.load_sessions_lines, validRecords,
          List.takeWhile_cons, Line.isMalformed, ih]

theorem loadB_lines_of_mem (lines : List Line) (h : Line.malformed ∈ lines) :
    BasicStats.load_sessions_lines lines = none := by
  induction lines with
  | nil => simp at h
  | cons l rest ih =>
      rcases List.mem_cons.mp h with h1 | h2
      · rw [← h1]
        rfl
      · cases l <;> simp [BasicStats.load_sessions_lines, ih h2]

theorem loadB_lines_of_not_mem (lines : List Line)
    (h : Line.malformed ∉ lines) :
    BasicStats.load_sessions_lines lines = some (validRecords lines) := by
  induction lines with
  | nil => rfl
  | cons l rest ih =>
      have h2 : Line.malformed ∉ rest := fun hm => h (List.mem_cons_of_mem _ hm)
      cases l with
      | blank => simp [BasicStats.load_sessions_lines, validRecords, ih h2]
      | malformed => exact absurd (List.mem_cons_self _ _) h
      | valid r => simp [BasicStats.load_sessions_lines, validRecords, ih h2]

/-- C1 counterexample: with a valid line, a malformed line and a second
valid line, the script loader keeps only the record before the malformed
line and the basic_stats loader keeps nothing, while the records of the
parseable lines are both; so the set of parsed records is not the set
obtained with the malformed line absent, and parsing does not continue
with the remaining lines. -/
theorem C1_loader_counterexample :
    ExperienceAnalyzer.load_sessions
        (some [Line.valid rSessA, Line.malformed, Line.valid rSessB]) = [rSessA] ∧
    BasicStats.load_sessions
        (some [Line.valid rSessA, Line.malformed, Line.valid rSessB]) = [] ∧
    validRecords [Line.valid rSessA, Line.malformed, Line.valid rSessB] =
      [rSessA, rSessB] ∧
    rSessA ≠ rSessB := by
  refine ⟨rfl, rfl, rfl, ?_⟩
  decide

/-- C1 amended: a malformed line logs a diagnostic and stops parsing at
that point rather than being skipped; the script loader returns exactly
the records of the lines before the first malformed line, and the
basic_stats loader returns the empty sequence whenever a malformed line
occurs anywhere; no fatal error is raised (both loaders are total), and
only in the absence of malformed lines do all valid records survive. -/
theorem C1_loader_amended (lines : List Line) :
    ExperienceAnalyzer.load_sessions (some lines) =
      validRecords (lines.takeWhile fun l => !l.isMalformed) ∧
    (Line.malformed ∈ lines → BasicStats.load_sessions (some lines) = []) ∧
    (Line.malformed ∉ lines →
      BasicStats.load_sessions (some lines) = validRecords lines) := by
  refine ⟨loadA_lines_eq lines, fun h => ?_, fun h => ?_⟩
  · simp [BasicStats.load_sessions, loadB_lines_of_mem lines h]
  · simp [BasicStats.load_sessions, loadB_lines_of_not_mem lines h]

/-- C1 amended witness at a concrete two-line and one-line input. -/
theorem C1_loader_amended_witness :
    ExperienceAnalyzer.load_sessions (some [Line.valid rSessA, Line.malformed]) =
      validRecords
        ([Line.valid rSessA, Line.malformed].takeWhile fun l => !l.isMalformed) ∧
    BasicStats.load_sessions (some [Line.valid rSessA, Line.malformed]) = [] ∧
    BasicStats.load_sessions (some [Line.valid rSessA]) =
      validRecords [Line.valid rSessA] :=
  ⟨(C1_loader_amended _).1, (C1_loader_amended _).2.1 (by decide),
    (C1_loader_amended _).2.2 (by decide)⟩

/-- C4 counterexample: on an absent file the loader does return the
empty sequence, but the report of analyze_all for empty history is the
three-key no-history dict, which carries no summary block and no group
mappings, while the report for nonempty history does; the output shape
is therefore not the same. -/
theorem C4_no_history_counterexample :
    ExperienceAnalyzer.Report.hasSummary
        (ExperienceAnalyzer.analyze_all sdZero
          (ExperienceAnalyzer.load_sessions none)) = false ∧
    ExperienceAnalyzer.Report.hasSummary
        (ExperienceAnalyzer.analyze_all sdZero [rExec]) = true :=
  ⟨rfl, rfl⟩

/-- C4 amended: an absent or empty log is not an error and both loaders
return the empty sequence; analyze_all then emits the fixed three-key
no-history dict of status, message and a zero total_sessions, without
summary or group mappings, while basic_stats main emits a no-history
document whose summary fields are present and zero and whose group
mappings are present and empty, plus an extra message key that the
analyzed shape lacks. -/
theorem C4_no_history_amended (sd : List ℚ → ℚ) :
    ExperienceAnalyzer.load_sessions none = [] ∧
    BasicStats.load_sessions none = [] ∧
    ExperienceAnalyzer.analyze_all sd [] =
      ExperienceAnalyzer.Report.noHistory "no_history" "No session history found" 0 ∧
    BasicStats.main_report sd [] =
      BasicStats.Report.noHistory "no_history" "No session history found"
        { total_sessions := 0, total_executions := 0, completed := 0, failed := 0
          success_rate := 0, total_cost_usd := 0, avg_cost_per_agent := 0 }
        [] { byAction := [], categories := none } :=
  ⟨rfl, rfl, rfl, rfl⟩

/-- C10: the standalone analyze_costs of basic_stats.py returns exactly
the same result as ExperienceAnalyzer.analyze_costs of
analyze_experience.py, for every record sequence and every
standard-deviation core. -/
theorem C10_analyze_costs_refinement (sd : List ℚ → ℚ)
    (sessions : List Record) :
    BasicStats.analyze_costs sd sessions =
      ExperienceAnalyzer.analyze_costs sd sessions := rfl

theorem totalCost_eq (sessions : List Record) :
    ExperienceAnalyzer.totalCost sessions =
      (sessions.filterMap Record.cost_usd).sum := by
  induction sessions with
  | nil => rfl
  | cons s rest ih =>
      simp only [ExperienceAnalyzer.totalCost] at ih ⊢
      rcases h : s.cost_usd with _ | c
      · simp [List.filter_cons, List.filterMap_cons, h, ih]
      · simp [List.filter_cons, List.filterMap_cons, h, ih]

/-- C5: total_cost_usd is the rounded sum of the cost_usd values of
exactly the records carrying the field, regardless of action, in both
summary implementations; appending a record without cost_usd never
changes it, so omission is not treated as zero. -/
theorem C5_total_cost_present_only (sessions : List Record) :
    (ExperienceAnalyzer.get_summary sessions).total_cost_usd =
      round2 (sessions.filterMap Record.cost_usd).sum ∧
    (BasicStats.get_summary sessions).total_cost_usd =
      round2 (sessions.filterMap Record.cost_usd).sum ∧
    ∀ r : Record, r.cost_usd = none →
      (ExperienceAnalyzer.get_summary (sessions ++ [r])).total_cost_usd =
        (ExperienceAnalyzer.get_summary sessions).total_cost_usd := by
  refine ⟨?_, ?_, ?_⟩
  · show round2 (ExperienceAnalyzer.totalCost sessions) = _
    rw [totalCost_eq]
  · show round2 (ExperienceAnalyzer.totalCost sessions) = _
    rw [totalCost_eq]
  · intro r h
    show round2 (ExperienceAnalyzer.totalCost (sessions ++ [r])) =
      round2 (ExperienceAnalyzer.totalCost sessions)
    rw [totalCost_eq, totalCost_eq, List.filterMap_append]
    simp [List.filterMap_cons, h]

/-- C5 witness: appending the empty record to a costed one leaves the
total unchanged. -/
theorem C5_total_cost_present_only_witness :
    (ExperienceAnalyzer.get_summary ([rExecCost] ++ [rEmpty])).total_cost_usd =
      (ExperienceAnalyzer.get_summary [rExecCost]).total_cost_usd :=
  (C5_total_cost_present_only [rExecCost]).2.2 rEmpty rfl

theorem rate_facts (c e : ℕ) :
    0 ≤ (if e = 0 then (0 : ℚ) else (c : ℚ) / (e : ℚ)) ∧
    ((if e = 0 then (0 : ℚ) else (c : ℚ) / (e : ℚ)) = 0 ↔ e = 0 ∨ c = 0) ∧
    (c ≤ e → (if e = 0 then (0 : ℚ) else (c : ℚ) / (e : ℚ)) ≤ 1) := by
  refine ⟨?_, ?_, ?_⟩
  · split
    · norm_num
    · positivity
  · split
    · simp [*]
    · rename_i h
      rw [div_eq_zero_iff]
      simp only [Nat.cast_eq_zero]
      constructor
      · intro hc
        rcases hc with hc | hc
        · exact Or.inr hc
        · exact absurd hc h
      · intro hc
        rcases hc with hc | hc
        · exact absurd hc h
        · exact Or.inl hc
  · intro hce
    split
    · norm_num
    · rename_i h
      rw [div_le_one (by exact_mod_cast Nat.pos_of_ne_zero h)]
      exact_mod_cast hce

theorem success_rate_def (sessions : List Record) :
    (ExperienceAnalyzer.get_summary sessions).success_rate =
      if ExperienceAnalyzer.countAction sessions "execute" = 0 then 0
      else (ExperienceAnalyzer.countAction sessions "complete" : ℚ) /
        (ExperienceAnalyzer.countAction sessions "execute" : ℚ) := rfl

/-- C2 counterexample: one execute record followed by two complete
records gives success_rate 2, outside the interval from 0 to 1; and one
lone execute record has a nonzero execution count yet success_rate 0,
so the rate is not 0 exactly when executions is 0. -/
theorem C2_success_rate_counterexample :
    1 < (ExperienceAnalyzer.get_summary [rExec, rComp, rComp]).success_rate ∧
    (ExperienceAnalyzer.get_summary [rExec]).total_executions ≠ 0 ∧
    (ExperienceAnalyzer.get_summary [rExec]).success_rate = 0 := by
  refine ⟨?_, by decide, ?_⟩
  · rw [success_rate_def]
    norm_num
      [show ExperienceAnalyzer.countAction [rExec, rComp, rComp] "execute" = 1
        from rfl,
       show ExperienceAnalyzer.countAction [rExec, rComp, rComp] "complete" = 2
        from rfl]
  · rw [success_rate_def]
    norm_num
      [show ExperienceAnalyzer.countAction [rExec] "execute" = 1 from rfl,
       show ExperienceAnalyzer.countAction [rExec] "complete" = 0 from rfl]

theorem round2_nonneg {q : ℚ} (h : 0 ≤ q) : 0 ≤ round2 q := by
  unfold round2
  have h1 : (0 : ℤ) ≤ round (q * 100) := by
    rw [round_eq]
    exact Int.floor_nonneg.mpr
      (add_nonneg (mul_nonneg h (by norm_num)) (by norm_num))
  exact div_nonneg (by exact_mod_cast h1) (by norm_num)

theorem round2_eq_zero_iff {q : ℚ} (h : 0 ≤ q) :
    round2 q = 0 ↔ q < 1 / 200 := by
  unfold round2
  constructor
  · intro hz
    have hr : round (q * 100) = 0 := by
      exact_mod_cast (div_eq_zero_iff.mp hz).resolve_right (by norm_num)
    have hm := round_eq_zero_iff.mp hr
    rw [Set.mem_Ico] at hm
    linarith [hm.2]
  · intro hq
    have hr : round (q * 100) = 0 :=
      round_eq_zero_iff.mpr (Set.mem_Ico.mpr ⟨by linarith, by linarith⟩)
    rw [hr]
    norm_num

theorem round2_le_one {q : ℚ} (h : q ≤ 1) : round2 q ≤ 1 := by
  unfold round2
  have h1 : round (q * 100) ≤ 100 := by
    rw [round_eq]
    calc ⌊q * 100 + 1 / 2⌋ ≤ ⌊(100 : ℚ) + 1 / 2⌋ :=
          Int.floor_le_floor (by linarith)
      _ = 100 := by
          rw [show ((100 : ℚ) + 1 / 2) = (1 / 2 + (100 : ℤ)) by push_cast; ring,
            Int.floor_add_int]
          norm_num
  rw [div_le_one (by norm_num)]
  exact_mod_cast h1

theorem rate_facts_rounded (c e : ℕ) :
    0 ≤ (if e = 0 then (0 : ℚ) else round2 ((c : ℚ) / (e : ℚ))) ∧
    ((if e = 0 then (0 : ℚ) else round2 ((c : ℚ) / (e : ℚ))) = 0 ↔
      e = 0 ∨ c = 0 ∨ (c : ℚ) / (e : ℚ) < 1 / 200) ∧
    (c ≤ e → (if e = 0 then (0 : ℚ) else round2 ((c : ℚ) / (e : ℚ))) ≤ 1) := by
  have hx : 0 ≤ (c : ℚ) / (e : ℚ) :=
    div_nonneg (Nat.cast_nonneg c) (Nat.cast_nonneg e)
  refine ⟨?_, ?_, ?_⟩
  · split
    · norm_num
    · exact round2_nonneg hx
  · split
    · rename_i h
      simp [h]
    · rename_i h
      rw [round2_eq_zero_iff hx]
      constructor
      · exact fun hq => Or.inr (Or.inr hq)
      · rintro (hh | hh | hh)
        · exact absurd hh h
        · rw [hh]
          norm_num
        · exact hh
  · intro hce
    split
    · norm_num
    · rename_i h
      apply round2_le_one
      rw [div_le_one (by exact_mod_cast Nat.pos_of_ne_zero h)]
      exact_mod_cast hce

/-- C2 amended: in both summaries the rate is nonnegative, and it is at
most 1 whenever the complete count does not exceed the execute count
(the counterexample shows it exceeding 1 otherwise). In
analyze_experience.py the unrounded rate equals 0 exactly when the
execute count is 0 or the complete count is 0; in basic_stats.py the
rate is rounded to 2 decimals, so it equals 0 exactly when the execute
count is 0, the complete count is 0, or the unrounded ratio is below
1/200 (for example 1 complete against 300 executes rounds to 0 with
both counts nonzero). -/
theorem C2_success_rate_amended (sessions : List Record) :
    (0 ≤ (ExperienceAnalyzer.get_summary sessions).success_rate ∧
      ((ExperienceAnalyzer.get_summary sessions).success_rate = 0 ↔
        (ExperienceAnalyzer.get_summary sessions).total_executions = 0 ∨
        (ExperienceAnalyzer.get_summary sessions).completed = 0) ∧
      ((ExperienceAnalyzer.get_summary sessions).completed ≤
          (ExperienceAnalyzer.get_summary sessions).total_executions →
        (ExperienceAnalyzer.get_summary sessions).success_rate ≤ 1)) ∧
    (0 ≤ (BasicStats.get_summary sessions).success_rate ∧
      ((BasicStats.get_summary sessions).success_rate = 0 ↔
        (BasicStats.get_summary sessions).total_executions = 0 ∨
        (BasicStats.get_summary sessions).completed = 0 ∨
        ((BasicStats.get_summary sessions).completed : ℚ) /
            ((BasicStats.get_summary sessions).total_executions : ℚ) <
          1 / 200) ∧
      ((BasicStats.get_summary sessions).completed ≤
          (BasicStats.get_summary sessions).total_executions →
        (BasicStats.get_summary sessions).success_rate ≤ 1)) :=
  ⟨rate_facts (ExperienceAnalyzer.countAction sessions "complete")
      (ExperienceAnalyzer.countAction sessions "execute"),
    rate_facts_rounded (ExperienceAnalyzer.countAction sessions "complete")
      (ExperienceAnalyzer.countAction sessions "execute")⟩

/-- C2 amended witness: one execute and one complete record give a rate
of at most 1 in both summaries. -/
theorem C2_success_rate_amended_witness :
    (ExperienceAnalyzer.get_summary [rExec, rComp]).success_rate ≤ 1 ∧
    (BasicStats.get_summary [rExec, rComp]).success_rate ≤ 1 :=
  ⟨(C2_success_rate_amended [rExec, rComp]).1.2.2 (by decide),
    (C2_success_rate_amended [rExec, rComp]).2.2.2 (by decide)⟩

theorem filter3_length (l : List ℚ) :
    (l.filter fun c => decide (c ≤ 15 / 100)).length +
      (l.filter fun c => decide (15 / 100 < c ∧ c ≤ 40 / 100)).length +
      (l.filter fun c => decide (40 / 100 < c)).length = l.length := by
  induction l with
  | nil => rfl
  | cons c rest ih =>
      rcases le_or_lt c (15 / 100) with h1 | h1
      · have h2 : ¬((15 : ℚ) / 100 < c ∧ c ≤ 40 / 100) :=
          fun hh => absurd h1 (not_le.mpr hh.1)
        have h3 : ¬((40 : ℚ) / 100 < c) := not_lt.mpr (h1.trans (by norm_num))
        simp [List.filter_cons, h1, h2, h3] at ih ⊢ <;> omega
      · rcases le_or_lt c (40 / 100) with h2 | h2
        · have hn1 : ¬(c ≤ (15 : ℚ) / 100) := not_le.mpr h1
          have h3 : ¬((40 : ℚ) / 100 < c) := not_lt.mpr h2
          simp [List.filter_cons, h1, h2, hn1, h3] at ih ⊢ <;> omega
        · have hn1 : ¬(c ≤ (15 : ℚ) / 100) :=
            not_le.mpr (lt_trans (by norm_num) h2)
          have hn2 : ¬((15 : ℚ) / 100 < c ∧ c ≤ 40 / 100) :=
            fun hh => absurd h2 (not_lt.mpr hh.2)
          simp [List.filter_cons, hn1, hn2, h2] at ih ⊢ <;> omega

theorem categories_def (sd : List ℚ → ℚ) (sessions : List Record) :
    (ExperienceAnalyzer.analyze_costs sd sessions).categories =
      if (ExperienceAnalyzer.costedExecCosts sessions).isEmpty then none
      else some
        { simple := ((ExperienceAnalyzer.costedExecCosts sessions).filter
            fun c => decide (c ≤ 15 / 100)).length
          medium := ((ExperienceAnalyzer.costedExecCosts sessions).filter
            fun c => decide (15 / 100 < c ∧ c ≤ 40 / 100)).length
          complex := ((ExperienceAnalyzer.costedExecCosts sessions).filter
            fun c => decide (40 / 100 < c)).length } := rfl

/-- C6: the categories block exists exactly when at least one costed
execute record exists; when it exists, the simple, medium and complex
counts sum to the number of costed execute records; and every costed
execute cost satisfies exactly one of the three bucket conditions, so
the buckets partition the costed execute records with no overlap and no
omission. -/
theorem C6_categories_partition (sd : List ℚ → ℚ) (sessions : List Record) :
    ((ExperienceAnalyzer.analyze_costs sd sessions).categories.isSome ↔
      ExperienceAnalyzer.costedExecCosts sessions ≠ []) ∧
    (∀ cats,
      (ExperienceAnalyzer.analyze_costs sd sessions).categories = some cats →
      cats.simple + cats.medium + cats.complex =
        (ExperienceAnalyzer.costedExecCosts sessions).length) ∧
    (∀ c ∈ ExperienceAnalyzer.costedExecCosts sessions,
      (c ≤ 15 / 100 ∧ ¬(15 / 100 < c ∧ c ≤ 40 / 100) ∧ ¬(40 / 100 < c)) ∨
      ((15 / 100 < c ∧ c ≤ 40 / 100) ∧ ¬(c ≤ 15 / 100) ∧ ¬(40 / 100 < c)) ∨
      ((40 / 100 < c) ∧ ¬(c ≤ 15 / 100) ∧
        ¬(15 / 100 < c ∧ c ≤ 40 / 100))) := by
  refine ⟨?_, ?_, ?_⟩
  · rw [categories_def]
    rcases hl : ExperienceAnalyzer.costedExecCosts sessions with _ | ⟨c, cs⟩
    · simp
    · simp
  · intro cats hc
    rw [categories_def] at hc
    rcases hl : ExperienceAnalyzer.costedExecCosts sessions with _ | ⟨c, cs⟩
    · rw [hl] at hc
      simp at hc
    · rw [hl] at hc
      simp only [List.isEmpty_cons, Bool.false_eq_true, if_false,
        Option.some.injEq] at hc
      rw [← hc]
      exact filter3_length (c :: cs)
  · intro c _
    rcases le_or_lt c (15 / 100) with h1 | h1
    · exact Or.inl ⟨h1, fun hh => absurd h1 (not_le.mpr hh.1),
        not_lt.mpr (h1.trans (by norm_num))⟩
    · rcases le_or_lt c (40 / 100) with h2 | h2
      · exact Or.inr (Or.inl ⟨⟨h1, h2⟩, not_le.mpr h1, not_lt.mpr h2⟩)
      · exact Or.inr (Or.inr ⟨h2, not_le.mpr (lt_trans (by norm_num) h2),
          fun hh => absurd h2 (not_lt.mpr hh.2)⟩)

/-- C6 witness at one execute record costing one tenth: the categories
block is some record whose counts 1, 0, 0 sum to the one costed execute
record, and the cost one tenth falls in exactly the simple bucket. -/
theorem C6_categories_partition_witness :
    ((⟨1, 0, 0⟩ : ExperienceAnalyzer.Categories).simple +
        (⟨1, 0, 0⟩ : ExperienceAnalyzer.Categories).medium +
        (⟨1, 0, 0⟩ : ExperienceAnalyzer.Categories).complex =
      (ExperienceAnalyzer.costedExecCosts [rExecCost]).length) ∧
    (((1 : ℚ) / 10 ≤ 15 / 100 ∧
        ¬(15 / 100 < (1 : ℚ) / 10 ∧ (1 : ℚ) / 10 ≤ 40 / 100) ∧
        ¬(40 / 100 < (1 : ℚ) / 10)) ∨
      ((15 / 100 < (1 : ℚ) / 10 ∧ (1 : ℚ) / 10 ≤ 40 / 100) ∧
        ¬((1 : ℚ) / 10 ≤ 15 / 100) ∧ ¬(40 / 100 < (1 : ℚ) / 10)) ∨
      ((40 / 100 < (1 : ℚ) / 10) ∧ ¬((1 : ℚ) / 10 ≤ 15 / 100) ∧
        ¬(15 / 100 < (1 : ℚ) / 10 ∧ (1 : ℚ) / 10 ≤ 40 / 100))) := by
  have hl : ExperienceAnalyzer.costedExecCosts [rExecCost] =
      [(1 : ℚ) / 10] := rfl
  have hcats : (ExperienceAnalyzer.analyze_costs sdZero [rExecCost]).categories =
      some ⟨1, 0, 0⟩ := by
    rw [categories_def, hl]
    norm_num [List.filter_cons, List.filter_nil]
  exact ⟨(C6_categories_partition sdZero [rExecCost]).2.1 ⟨1, 0, 0⟩ hcats,
    (C6_categories_partition sdZero [rExecCost]).2.2 ((1 : ℚ) / 10)
      (by rw [hl]; exact List.mem_singleton_self _)⟩

theorem byAction_def (sd : List ℚ → ℚ) (sessions : List Record) :
    (ExperienceAnalyzer.analyze_costs sd sessions).byAction =
      (ExperienceAnalyzer.costsByAction sessions).filterMap fun p =>
        if p.2.isEmpty then none
        else some (p.1, ExperienceAnalyzer.mkActionStats sd p.2) := rfl

/-- C7: in the per-action cost statistics, a cost list with fewer than 2
elements reports a standard deviation of exactly 0 (the literal, not a
computed value, whatever the standard-deviation core sd does); a
singleton cost list reports as median exactly its element, returned
directly without the median computation; and in the per-agent-type
statistics a singleton cost list likewise reports that element as its
median. -/
theorem C7_degenerate_stats (sd : List ℚ → ℚ) (sessions : List Record) :
    (∀ a st, (a, st) ∈ (ExperienceAnalyzer.analyze_costs sd sessions).byAction →
      st.count < 2 → st.stdev = 0) ∧
    (∀ a c, (a, [c]) ∈ ExperienceAnalyzer.costsByAction sessions →
      (a, ExperienceAnalyzer.mkActionStats sd [c]) ∈
          (ExperienceAnalyzer.analyze_costs sd sessions).byAction ∧
        (ExperienceAnalyzer.mkActionStats sd [c]).median = c ∧
        (ExperienceAnalyzer.mkActionStats sd [c]).count = 1) ∧
    (∀ t d c, (t, d) ∈ ExperienceAnalyzer.typeData sessions → 0 < d.count →
      d.costs = [c] →
      (t, ExperienceAnalyzer.mkTypeStats d) ∈
          ExperienceAnalyzer.analyze_agent_types sessions ∧
        (ExperienceAnalyzer.mkTypeStats d).median_cost = c) := by
  refine ⟨?_, ?_, ?_⟩
  · intro a st hmem hcount
    rw [byAction_def] at hmem
    rcases List.mem_filterMap.mp hmem with ⟨p, hp, hf⟩
    by_cases he : p.2.isEmpty
    · simp [he] at hf
    · simp [he] at hf
      obtain ⟨hfa, hfst⟩ := hf
      rw [← hfst] at hcount ⊢
      have hc2 : p.2.length < 2 := hcount
      show (if 1 < p.2.length then round2 (sd p.2) else 0) = 0
      rw [if_neg]
      omega
  · intro a c hmem
    refine ⟨?_, rfl, rfl⟩
    rw [byAction_def]
    exact List.mem_filterMap.mpr ⟨(a, [c]), hmem, rfl⟩
  · intro t d c hmem hcount hcosts
    obtain ⟨cnt, costs, succ, fl⟩ := d
    have hc2 : costs = [c] := hcosts
    subst hc2
    exact ⟨List.mem_filterMap.mpr ⟨(t, ⟨cnt, [c], succ, fl⟩), hmem,
      by simp [hcount]⟩, rfl⟩

/-- C7 witness at one costed execute record of agent type gen, cost one
tenth: the per-action stats for execute report median one tenth, count
1 and standard deviation 0, and the per-type stats for gen report
median one tenth. -/
theorem C7_degenerate_stats_witness :
    (("execute", ExperienceAnalyzer.mkActionStats sdZero [(1 : ℚ) / 10]) ∈
        (ExperienceAnalyzer.analyze_costs sdZero [rExecCost]).byAction ∧
      (ExperienceAnalyzer.mkActionStats sdZero [(1 : ℚ) / 10]).median =
        (1 : ℚ) / 10 ∧
      (ExperienceAnalyzer.mkActionStats sdZero [(1 : ℚ) / 10]).count = 1) ∧
    (ExperienceAnalyzer.mkActionStats sdZero [(1 : ℚ) / 10]).stdev = 0 ∧
    (("gen", ExperienceAnalyzer.mkTypeStats ⟨1, [(1 : ℚ) / 10], 0, 0⟩) ∈
        ExperienceAnalyzer.analyze_agent_types [rExecCost] ∧
      (ExperienceAnalyzer.mkTypeStats ⟨1, [(1 : ℚ) / 10], 0, 0⟩).median_cost =
        (1 : ℚ) / 10) := by
  have hmemA : ("execute", [(1 : ℚ) / 10]) ∈
      ExperienceAnalyzer.costsByAction [rExecCost] := by
    simp [ExperienceAnalyzer.costsByAction, ExperienceAnalyzer.costsByActionStep,
      updAssoc, rExecCost]
  have hmemT : ("gen", (⟨1, [(1 : ℚ) / 10], 0, 0⟩ :
      ExperienceAnalyzer.TypeData)) ∈
      ExperienceAnalyzer.typeData [rExecCost] := by
    simp [ExperienceAnalyzer.typeData, ExperienceAnalyzer.typeDataStep,
      ExperienceAnalyzer.TypeData.empty, updAssoc, rExecCost]
  have h2 := (C7_degenerate_stats sdZero [rExecCost]).2.1 "execute"
    ((1 : ℚ) / 10) hmemA
  refine ⟨h2, ?_, (C7_degenerate_stats sdZero [rExecCost]).2.2 "gen"
    ⟨1, [(1 : ℚ) / 10], 0, 0⟩ ((1 : ℚ) / 10) hmemT (by decide) rfl⟩
  exact (C7_degenerate_stats sdZero [rExecCost]).1 "execute"
    (ExperienceAnalyzer.mkActionStats sdZero [(1 : ℚ) / 10]) h2.1
    (by rw [h2.2.2]; omega)

theorem mem_lowSuccess_iff (sessions : List Record) :
    ExperienceAnalyzer.Advice.lowSuccess ∈
        ExperienceAnalyzer.generate_recommendations sessions ↔
      (ExperienceAnalyzer.get_summary sessions).success_rate < 70 / 100 := by
  simp only [ExperienceAnalyzer.generate_recommendations]
  rcases hmax : ExperienceAnalyzer.maxByCount
      (ExperienceAnalyzer.analyze_agent_types sessions) with _ | p
  · simp only [hmax]
    split_ifs <;> simp_all
  · simp only [hmax]
    split_ifs <;> simp_all

theorem mem_highSuccess_iff (sessions : List Record) :
    ExperienceAnalyzer.Advice.highSuccess ∈
        ExperienceAnalyzer.generate_recommendations sessions ↔
      (¬(ExperienceAnalyzer.get_summary sessions).success_rate < 70 / 100 ∧
        85 / 100 ≤ (ExperienceAnalyzer.get_summary sessions).success_rate) := by
  simp only [ExperienceAnalyzer.generate_recommendations]
  rcases hmax : ExperienceAnalyzer.maxByCount
      (ExperienceAnalyzer.analyze_agent_types sessions) with _ | p
  · simp only [hmax]
    split_ifs <;> simp_all
  · simp only [hmax]
    split_ifs <;> simp_all

/-- C8: the low-success warning is emitted exactly when success_rate is
below 0.70 and the positive note exactly when it is at least 0.85 (the
two thresholds cannot hold together, so the elif never masks the note);
the two are never emitted together; and in the band from 0.70 inclusive
to 0.85 exclusive neither is emitted. -/
theorem C8_success_rate_advice (sessions : List Record) :
    (ExperienceAnalyzer.Advice.lowSuccess ∈
        ExperienceAnalyzer.generate_recommendations sessions ↔
      (ExperienceAnalyzer.get_summary sessions).success_rate < 70 / 100) ∧
    (ExperienceAnalyzer.Advice.highSuccess ∈
        ExperienceAnalyzer.generate_recommendations sessions ↔
      85 / 100 ≤ (ExperienceAnalyzer.get_summary sessions).success_rate) ∧
    ¬(ExperienceAnalyzer.Advice.lowSuccess ∈
        ExperienceAnalyzer.generate_recommendations sessions ∧
      ExperienceAnalyzer.Advice.highSuccess ∈
        ExperienceAnalyzer.generate_recommendations sessions) ∧
    (70 / 100 ≤ (ExperienceAnalyzer.get_summary sessions).success_rate →
      (ExperienceAnalyzer.get_summary sessions).success_rate < 85 / 100 →
      ExperienceAnalyzer.Advice.lowSuccess ∉
          ExperienceAnalyzer.generate_recommendations sessions ∧
        ExperienceAnalyzer.Advice.highSuccess ∉
          ExperienceAnalyzer.generate_recommendations sessions) := by
  have hl := mem_lowSuccess_iff sessions
  have hh := mem_highSuccess_iff sessions
  have hh2 : ExperienceAnalyzer.Advice.highSuccess ∈
      ExperienceAnalyzer.generate_recommendations sessions ↔
      85 / 100 ≤ (ExperienceAnalyzer.get_summary sessions).success_rate := by
    rw [hh]
    constructor
    · exact fun hc => hc.2
    · exact fun hc => ⟨fun hlt => by linarith, hc⟩
  refine ⟨hl, hh2, ?_, ?_⟩
  · rintro ⟨h1, h2⟩
    rw [hl] at h1
    rw [hh2] at h2
    linarith
  · intro hge hlt
    constructor
    · rw [hl]
      exact not_lt.mpr hge
    · rw [hh2]
      exact not_le.mpr hlt

/-- C8 witness at four execute and three complete records, whose rate
three quarters lies in the band: neither advisory is emitted. -/
theorem C8_success_rate_advice_witness :
    ExperienceAnalyzer.Advice.lowSuccess ∉
        ExperienceAnalyzer.generate_recommendations
          [rExec, rExec, rExec, rExec, rComp, rComp, rComp] ∧
      ExperienceAnalyzer.Advice.highSuccess ∉
        ExperienceAnalyzer.generate_recommendations
          [rExec, rExec, rExec, rExec, rComp, rComp, rComp] := by
  have hr : (ExperienceAnalyzer.get_summary
      [rExec, rExec, rExec, rExec, rComp, rComp, rComp]).success_rate =
      ((3 : ℕ) : ℚ) / ((4 : ℕ) : ℚ) := by
    rw [success_rate_def]
    norm_num [show ExperienceAnalyzer.countAction
        [rExec, rExec, rExec, rExec, rComp, rComp, rComp] "execute" = 4 from rfl,
      show ExperienceAnalyzer.countAction
        [rExec, rExec, rExec, rExec, rComp, rComp, rComp] "complete" = 3 from rfl]
  exact (C8_success_rate_advice
      [rExec, rExec, rExec, rExec, rComp, rComp, rComp]).2.2.2
    (by rw [hr]; norm_num) (by rw [hr]; norm_num)

end DeltaEngine
